import Mathlib

/-!
Verification of the HomebrewNLP-MTF optimizer core (`src/optimizers.py`,
`src/run/train.py`) against its natural-language specification.

Shallow embedding conventions:
* Tensor element values are modelled by exact rationals (`ℚ`); the framework's
  float primitives such as `rsqrt` appear as explicit function parameters wherever
  a claim's code path actually evaluates them.
* Fallible Python code (index errors, unbound locals) is modelled with `Option`.
* Graph-construction side effects (the `update_ops` list of deferred `assign` /
  `assign_sub` nodes) are modelled as explicit lists of operations.
-/

namespace HomebrewOpt

/-- Indicator cast, modelling `tf.cast(bool, float)` / `to_fp32(...)`. -/
def boolQ (b : Bool) : ℚ := if b then 1 else 0

/-- Embeds `utils_mtf.weighted_add(left, right, alpha) = left * alpha + right * (1 - alpha)`. -/
def weightedAdd (left right alpha : ℚ) : ℚ := left * alpha + right * (1 - alpha)

/-- Dot product of two flat tensors, modelling `einsum([a, b], output_shape=[])`. -/
def dot (a b : List ℚ) : ℚ := (List.zipWith (fun x y => x * y) a b).sum

/-- Pointwise subtraction of same-shape tensors. -/
def vsub (a b : List ℚ) : List ℚ := List.zipWith (fun x y => x - y) a b

/-- Pointwise addition of same-shape tensors. -/
def vadd (a b : List ℚ) : List ℚ := List.zipWith (fun x y => x + y) a b

/-- Scalar times tensor, modelling broadcasting of a `[]`-shaped tensor. -/
def vscale (c : ℚ) (a : List ℚ) : List ℚ := a.map (fun x => c * x)

/-!
## Gradient accumulation records (optimizers.py, `update` lines 46-57 and
`get_optimizer` lines 306-321)

A pending-gradient record `tensor_to_gradient[t] = [seen, contribs, grad]` holds
the producer-visit counter (`grad_list[0]`), the contribution counter
(`grad_list[1]`) and the accumulated gradient tensor (`grad_list[2]`).  Of the
gradient tensor the bookkeeping inspects only its numeric value and
`len(grad.operation.inputs)`, the input arity of its producing operation, so a
gradient tensor is embedded as that pair.
-/

/-- A gradient tensor as seen by the accumulation bookkeeping: its
(representative) numeric value and the input arity of its producing operation. -/
structure GradVal where
  val : ℚ
  arity : ℕ
deriving DecidableEq, Repr

/-- One entry of `tensor_to_gradient`: `[grad_list[0], grad_list[1], grad_list[2]]`. -/
structure GradRecord where
  seen : ℕ
  contribs : ℕ
  grad : GradVal
deriving DecidableEq, Repr

/-- Association-list lookup (Python `dict` access by tensor key). -/
def alookup (m : List (ℕ × GradRecord)) (k : ℕ) : Option GradRecord :=
  match m.find? (fun p => p.1 = k) with
  | some p => some p.2
  | none => none

/-- Replace the record stored under key `k` (in-place mutation of the dict entry). -/
def areplace (m : List (ℕ × GradRecord)) (k : ℕ) (r : GradRecord) : List (ℕ × GradRecord) :=
  m.map (fun p => if p.1 = k then (k, r) else p)

/-- Delete the record stored under key `k` (`del tensor_to_gradient[out]`). -/
def aerase (m : List (ℕ × GradRecord)) (k : ℕ) : List (ℕ × GradRecord) :=
  m.filter (fun p => p.1 ≠ k)

/-- Embeds the per-contribution map update of `optimizers.update` (lines 50-55):

    if inp in tensor_to_gradient:
        grad_list = tensor_to_gradient[inp]
        grad_list[1] += 1
        grad_list[2] = add(loss_list[2], grad)
    else:
        tensor_to_gradient[inp] = grad_list = [0, 1, grad]

Note the source reads `loss_list[2]` (the third entry of the loss list), not the
running sum `grad_list[2]`.  The loss list holds `Option ℚ` entries because the
`mgda` strategy appends a Python `None` slot; `add(None, grad)` and an
out-of-range `loss_list[2]` both abort graph construction, modelled as `none`.
The freshly produced `add` node has two inputs, hence arity 2. -/
def contribute (lossList : List (Option ℚ)) (m : List (ℕ × GradRecord)) (inp : ℕ)
    (g : GradVal) : Option (List (ℕ × GradRecord)) :=
  match alookup m inp with
  | some r =>
      match lossList.get? 2 with
      | some (some l2) =>
          some (areplace m inp ⟨r.seen, r.contribs + 1, ⟨l2 + g.val, 2⟩⟩)
      | _ => none
  | none => some (m ++ [(inp, ⟨0, 1, g⟩)])

/-- Embeds the gather step of the reverse walk (`get_optimizer` lines 311-321)
for a single output tensor `out`:

    grad_list = tensor_to_gradient[out]
    grad_outputs.append(grad_list[2])
    grad_list[0] += 1
    if grad_list[0] == len(grad_list[2].operation.inputs):
        del tensor_to_gradient[out]

Returns the gathered gradient (or `none` when `out` has no pending entry)
together with the updated map. -/
def gatherOne (m : List (ℕ × GradRecord)) (out : ℕ) :
    Option GradVal × List (ℕ × GradRecord) :=
  match alookup m out with
  | none => (none, m)
  | some r =>
      let r' : GradRecord := ⟨r.seen + 1, r.contribs, r.grad⟩
      if r'.seen = r.grad.arity then (some r.grad, aerase m out)
      else (some r.grad, areplace m out r')

/-- A graph operation as the walk sees it: ordered input / output tensor ids, the
`has_gradient` flag, and for each input the gradient tensor its gradient rule
produces (`None` when the rule yields no gradient for that slot).  The gradient
rules themselves live in the external mesh-tensorflow layer, so their results
are recorded as data. -/
structure GOp where
  inputs : List ℕ
  outputs : List ℕ
  hasGradient : Bool
  inGrads : List (Option GradVal)
deriving DecidableEq, Repr

/-- Embeds the downstream-set computation (`get_optimizer` lines 300-304):
starting from the trainable-variable outputs, a forward pass marks every
gradient-supporting operation whose inputs intersect the set. -/
def computeDownstream (ops : List GOp) (xs : List ℕ) : List ℕ :=
  ops.foldl
    (fun ds op =>
      if op.hasGradient ∧ ¬ (op.inputs.filter (fun i => ds.contains i)).isEmpty
      then ds ++ op.outputs else ds)
    xs

/-- Embeds one operation visit of the reverse walk (`get_optimizer` lines
309-327 together with the map-updating prefix of `update`, lines 46-57): gather
the pending gradients of the operation's outputs (deleting completed records),
skip the operation if it has no gradient rule, no present output gradient, or no
downstream input; otherwise fold every produced input gradient into the map. -/
def visitOp (lossList : List (Option ℚ)) (downstream : List ℕ)
    (m : List (ℕ × GradRecord)) (op : GOp) : Option (List (ℕ × GradRecord)) :=
  let gather := op.outputs.foldl
    (fun (acc : List (Option GradVal) × List (ℕ × GradRecord)) out =>
      let (g, m') := gatherOne acc.2 out
      (acc.1 ++ [g], m'))
    ([], m)
  let gradOutputs := gather.1
  let m₁ := gather.2
  if ¬ op.hasGradient ∨ ¬ gradOutputs.any Option.isSome ∨
      (op.inputs.filter (fun i => downstream.contains i)).isEmpty then
    some m₁
  else
    (List.zip op.inputs op.inGrads).foldlM
      (fun acc p =>
        if ¬ downstream.contains p.1 then some acc
        else
          match p.2 with
          | none => some acc
          | some g => contribute lossList acc p.1 g)
      m₁

/-- Embeds the reverse walk over the operation list (`for op in operations[::-1]`)
for one loss pass, starting from the map `{loss: [0, 0, loss_grad]}` where
`loss_grad = constant_scalar(params, 1.0)` is produced by a zero-input constant
operation. -/
def reverseWalk (lossList : List (Option ℚ)) (ops : List GOp) (xs : List ℕ)
    (lossTensor : ℕ) : Option (List (ℕ × GradRecord)) :=
  let downstream := computeDownstream ops xs
  ops.reverse.foldlM (visitOp lossList downstream) [(lossTensor, ⟨0, 0, ⟨1, 0⟩⟩)]

/-!
## Multi-loss combination (optimizers.py, `update` lines 69-110 and
`get_optimizer` lines 276-294)
-/

/-- Python substring test `pat in hay`. -/
def strContains (hay pat : String) : Bool :=
  (List.range (hay.toList.length + 1)).any
    (fun i => List.isPrefixOf pat.toList (hay.toList.drop i))

/-- String-keyed dictionary lookup (for the `first_grad` dict). -/
def flookup (m : List (String × List ℚ)) (k : String) : Option (List ℚ) :=
  match m.find? (fun p => p.1 = k) with
  | some p => some p.2
  | none => none

/-- Dictionary assignment `first_grad[op.name] = grad` (overwrite or append). -/
def finsert (m : List (String × List ℚ)) (k : String) (v : List ℚ) :
    List (String × List ℚ) :=
  if (m.find? (fun p => p.1 = k)).isSome
  then m.map (fun p => if p.1 = k then (k, v) else p)
  else m ++ [(k, v)]

/-- Dictionary deletion `del first_grad[op.name]`. -/
def fremove (m : List (String × List ℚ)) (k : String) : List (String × List ℚ) :=
  m.filter (fun p => p.1 ≠ k)

/-- Inner loop of the pcgrad deconfliction (`update` lines 84-85):

    for g, sq in zip(all_grads, g_square):
        grad -= g * (minimum(einsum([grad, g], output_shape=[]), 0) / sq)
-/
def pcgradInner (pairs : List (List ℚ × ℚ)) (grad : List ℚ) : List ℚ :=
  pairs.foldl (fun gr p => vsub gr (vscale (min (dot gr p.1) 0 / p.2) p.1)) grad

/-- Outer loop of the pcgrad deconfliction (`update` lines 82-88), iterated once
per initial element of `all_grads`:

    for i in range(len(all_grads)):
        grad = all_grads.pop(0)
        for g, sq in zip(all_grads, g_square): ...
        all_grads.append(grad)
        g_square.append(einsum([g, g], output_shape=[]))

The Python loop variable `g` holds the last element of the zip after the inner
loop, so `g_square` grows by the squared norm of that last partner (when the zip
is empty Python would reuse a stale binding; that case is unreachable for the
two-element list the source always builds and is modelled as no growth). -/
def pcgradPass : ℕ → List (List ℚ) × List ℚ → List (List ℚ) × List ℚ
  | 0, st => st
  | n + 1, (allGrads, gSquare) =>
      match allGrads with
      | [] => (allGrads, gSquare)
      | grad :: rest =>
          let pairs := List.zip rest gSquare
          let grad' := pcgradInner pairs grad
          let gSquare' :=
            match pairs.getLast? with
            | some p => gSquare ++ [dot p.1 p.1]
            | none => gSquare
          pcgradPass n (rest ++ [grad'], gSquare')

/-- Sum of a list of same-shape tensors, modelling `add_n`. -/
def addN (vs : List (List ℚ)) : List ℚ :=
  match vs with
  | [] => []
  | v :: rest => rest.foldl vadd v

/-- The full pcgrad combination for one body parameter (`update` lines 79-90):
`grad` is the current (last) loss's gradient, `firstGrad` the one stored by the
earlier loss pass; `g_square` starts as `[1e-6 + ⟨firstGrad, firstGrad⟩]`. -/
def pcgradCombine (grad firstGrad : List ℚ) : List ℚ :=
  let allGrads := [grad, firstGrad]
  let gSquare := [1 / 1000000 + dot firstGrad firstGrad]
  addN (pcgradPass allGrads.length (allGrads, gSquare)).1

/-- Mutable state threaded through the multi-loss block: the `first_grad` dict
and the three mgda inner-product accumulators (`loss_1__loss_1`,
`loss_1__loss_2`, `loss_2__loss_2`, scalarized over the head dimension). -/
structure MLState where
  firstGrad : List (String × List ℚ)
  l11 : ℚ
  l12 : ℚ
  l22 : ℚ
deriving DecidableEq, Repr

/-- Embeds the multi-loss block of `optimizers.update` (lines 69-110) for one
`(op, grad)` pair.  Returns `none` in the first component for a Python
`continue` (the per-variable update is skipped), otherwise the gradient that
flows on into the update pipeline.

The control structure follows the source indentation exactly: the
`elif params.multi_loss_strategy == "mgda":` at line 92 is nested inside the
`if params.multi_loss_strategy == "pcgrad":` branch (it is the `elif` of
line 71's `if 'body' in op.name:`), so the mgda accumulation block (lines
93-110) is guarded by the contradictory condition
`strategy = "pcgrad" ∧ strategy = "mgda"` and is unreachable. -/
def multiLossAdjust (strategy : String) (numLosses lossIdx : ℕ) (opName : String)
    (grad : List ℚ) (st : MLState) : Option (List ℚ) × MLState :=
  if numLosses > 1 then
    if strategy = "pcgrad" then
      if strContains opName "body" then
        if lossIdx < numLosses - 1 then
          (none, { st with firstGrad := finsert st.firstGrad opName grad })
        else
          match flookup st.firstGrad opName with
          | none => (none, st)
          | some fg => (some (pcgradCombine grad fg), st)
      else if strategy = "mgda" then
        if strContains opName "body" then
          if lossIdx < 2 then
            if lossIdx = 0 then
              (none, { st with firstGrad := finsert st.firstGrad opName grad })
            else
              match flookup st.firstGrad opName with
              | none => (none, st)
              | some fg =>
                  (none, { st with
                            firstGrad := fremove st.firstGrad opName,
                            l11 := st.l11 + dot fg fg,
                            l12 := st.l12 + dot fg grad,
                            l22 := st.l22 + dot grad grad })
          else (some grad, st)
        else if lossIdx = 2 then (none, st)
        else (some grad, st)
      else (some grad, st)
    else (some grad, st)
  else (some grad, st)

/-- Embeds the mgda weight computation of `get_optimizer` (lines 287-291):

    min_gamma = 0.001
    gamma = (1 - min_gamma) * to_fp32(greater_equal(v1v2, v1v1))
    gamma += min_gamma * to_fp32(greater_equal(v1v2, v2v2)) * to_fp32(equal(gamma, 0))
    gamma += (-1.0 * ((v1v2 - v2v2) / (v1v1 + v2v2 - 2 * v1v2))) * to_fp32(equal(gamma, 0))

Division is exact rational division (with the Lean convention `x / 0 = 0`
standing in for the framework's float division, which would produce a NaN that
the zero indicator does not mask). -/
def mgdaGamma (v11 v12 v22 : ℚ) : ℚ :=
  let minGamma : ℚ := 1 / 1000
  let gammaA := (1 - minGamma) * (if v12 ≥ v11 then (1 : ℚ) else 0)
  let gammaB := gammaA + minGamma * (if v12 ≥ v22 then (1 : ℚ) else 0) *
      (if gammaA = 0 then (1 : ℚ) else 0)
  gammaB + (-1 * ((v12 - v22) / (v11 + v22 - 2 * v12))) *
      (if gammaB = 0 then (1 : ℚ) else 0)

/-- An mgda training step as the code performs it for a single body parameter:
the accumulators start as zero constants (`get_optimizer` lines 277-279), the
backward passes of loss 0 and loss 1 run the multi-loss block on the body
gradients `g1` and `g2`, and the pass of `loss_idx = 2` derives `gamma` from the
reduced accumulators (lines 283-291). -/
def mgdaRunGamma (g1 g2 : List ℚ) : ℚ :=
  let st0 : MLState := ⟨[], 0, 0, 0⟩
  let st1 := (multiLossAdjust "mgda" 3 0 "body_op" g1 st0).2
  let st2 := (multiLossAdjust "mgda" 3 1 "body_op" g2 st1).2
  mgdaGamma st2.l11 st2.l12 st2.l22

/-!
## Per-variable update pipeline (optimizers.py, `update` lines 112-200)

Tensor values are scalarized to their representative element; reductions over a
tensor's own dimensions therefore act on that element.  The float primitives
`rsqrt` and `sqrt` of the mesh-tensorflow wrapper are passed in explicitly.
-/

/-- The framework's numeric primitives used by the update rules. -/
structure NumKernels where
  rsqrt : ℚ → ℚ
  sqrt : ℚ → ℚ

/-- The configuration fields of `ModelParameter` read by the update pipeline
(the `ModelParameter` class itself lives outside the provided sources; the
fields are exactly those the pipeline dereferences). -/
structure Params where
  optimizer : String
  gradAccumulation : ℕ
  gradientClip : ℚ
  adaptiveGradientClipping : Bool
  weightDecay : ℚ
  weightCentralisation : Bool
  weightStandardisation : Bool
  optBeta1 : ℚ
  optBeta2 : ℚ
  optEpsilon : ℚ
  rezeroLrMultiplier : ℚ
  featureDimsLen : ℕ
  nBlocks : ℕ

/-- A trainable variable as the pipeline sees it.  `featuresUsed` records the
result of `feature_dims_used(params, var)` and `fanInSize` the product of the
fan-in dimension sizes selected at lines 119-125; both helpers live in code not
under the provided sources, so their results are supplied as data. -/
structure UVar where
  name : String
  ndims : ℕ
  size : ℕ
  value : ℚ
  featuresUsed : Bool
  fanInSize : ℕ

/-- A deferred graph-construction side effect appended to `update_ops`:
an `assign` to a named optimizer buffer, an `assign` to the variable itself
(weight standardisation), or an `assign_sub` on the variable. -/
inductive UOp where
  | assignBuf (name : String) (val : ℚ)
  | assignVar (val : ℚ)
  | assignSubVar (val : ℚ)
deriving DecidableEq, Repr

/-- Embeds `optimizers.update` lines 112-200 for one `(variable, gradient)`
pair: gradient-accumulation buffering, gradient clipping, the optimizer
dispatch, and the post-processing chain ending in the final variable
assignment.  `bufs` holds the current values of the lazily created,
zero-initialized optimizer state buffers, keyed by their name suffix (the full
key in the source is `f"{var.name}/{params.optimizer}/{suffix}"`; the
variable/optimizer prefix is fixed within one run and factored out).  Returns
the ordered list of emitted `update_ops` entries, or `none` when the dispatch
falls through every branch and line 172 reads the unbound `weight_update`
(Python `UnboundLocalError`). -/
def updateVar (K : NumKernels) (p : Params) (v : UVar) (bufs : String → ℚ)
    (step mstep beta1 beta2 lr grad0 : ℚ) : Option (List UOp) :=
  let accPair : ℚ × List UOp :=
    if p.gradAccumulation > 1 then
      let nextGrad := grad0 + bufs "grad_accumulation"
      (nextGrad * step * (1 / (p.gradAccumulation : ℚ)),
       [UOp.assignBuf "grad_accumulation" (nextGrad * mstep)])
    else (grad0, [])
  let grad1 := accPair.1
  let ops1 := accPair.2
  let grad2 :=
    if p.gradientClip > 0 ∧ p.adaptiveGradientClipping then
      let grdNorm := K.sqrt (grad1 * grad1 + 1 / 100000)
      let wgtNorm := K.sqrt (v.value * v.value + 1 / 1000)
      weightedAdd (grdNorm * (1 / wgtNorm) * p.gradientClip * grad1) grad1
        (if wgtNorm / grdNorm > p.gradientClip then 1 else 0)
    else if p.gradientClip > 0 then
      min (K.rsqrt (grad1 * grad1 + 1 / 1000000)) (1 / p.gradientClip)
        * grad1 * p.gradientClip
    else grad1
  let disp : Option (ℚ × List UOp) :=
    if v.ndims ≤ 1 ∨ p.optimizer = "adam" then
      let p2 := weightedAdd (bufs "exp_avg_p2") (grad2 * grad2) beta2
      let base : List UOp := [UOp.assignBuf "exp_avg_p2" p2]
      if p.optBeta1 ≠ 0 then
        let g := weightedAdd (bufs "exp_avg_p1") grad2 beta1
        some (g * K.rsqrt (p2 + p.optEpsilon), base ++ [UOp.assignBuf "exp_avg_p1" g])
      else
        some (grad2 * K.rsqrt (p2 + p.optEpsilon), base)
    else if p.optimizer = "sgd" then some (grad2, [])
    else if p.optimizer = "novograd" then
      let p1 := bufs "exp_avg_p1"
      let p2 := weightedAdd (bufs "exp_avg_p2") (grad2 * grad2) beta2
      some (beta1 * p1 + grad2 * K.rsqrt (p2 + p.optEpsilon),
            [UOp.assignBuf "exp_avg_p1"
               (beta1 * p1 + grad2 * K.rsqrt (p2 + p.optEpsilon)),
             UOp.assignBuf "exp_avg_p2" p2])
    else if p.optimizer = "sm3" then
      let mn := (List.range (v.ndims - 1)).foldl
        (fun acc i => min acc (bufs ("dim" ++ toString (i + 1)))) (bufs "dim0")
      let upd := mn + grad2 * grad2
      some (grad2 * K.rsqrt (upd + p.optEpsilon),
            (List.range v.ndims).map (fun i => UOp.assignBuf ("dim" ++ toString i) upd))
    else none
  match disp with
  | none => none
  | some (wu0, ops2) =>
      let wu1 := wu0 * lr
      let largeTensor :=
        ((v.featuresUsed && decide (v.ndims > p.featureDimsLen)) ||
         (!v.featuresUsed && decide (v.ndims ≥ 2)))
        && decide (v.size > 1)
        && !(strContains v.name "embed")
        && (!(strContains v.name "input") || strContains v.name "lang_in" ||
            strContains v.name "vid_in")
        && (!(strContains v.name "output") || strContains v.name "lang_out" ||
            strContains v.name "vid_out")
      let wu2 := if strContains v.name "rezero" then wu1 * p.rezeroLrMultiplier else wu1
      let wu3 := if largeTensor ∧ p.weightDecay > 0
        then v.value + p.weightDecay * v.value * lr else wu2
      let wu4 := if largeTensor ∧ p.weightCentralisation then wu3 + v.value else wu3
      let wu5 := if p.gradAccumulation > 1 then wu4 * step else wu4
      if largeTensor ∧ p.weightStandardisation then
        let val := v.value - wu5
        let std := K.rsqrt (1 / 1000000 + val * val * K.rsqrt (v.size : ℚ))
        let scale := K.sqrt (((v.fanInSize : ℚ) - 2) / (v.size : ℚ) / (p.nBlocks : ℚ))
        some (ops1 ++ ops2 ++ [UOp.assignVar (scale * val * std)])
      else
        some (ops1 ++ ops2 ++ [UOp.assignSubVar wu5])

/-- Execute the emitted update operations against the variable value and the
buffer store (the external executor runs every op of `update_ops` once per
step). -/
def applyUOps (ops : List UOp) (v0 : ℚ) (bufs : String → ℚ) : ℚ × (String → ℚ) :=
  ops.foldl
    (fun acc op =>
      match op with
      | UOp.assignBuf n val => (acc.1, fun k => if k = n then val else acc.2 k)
      | UOp.assignVar val => (val, acc.2)
      | UOp.assignSubVar val => (acc.1 - val, acc.2))
    (v0, bufs)

/-- The variable's value after the emitted operations execute. -/
def varAfter (r : Option (List UOp)) (v0 : ℚ) (bufs : String → ℚ) : Option ℚ :=
  r.map (fun ops => (applyUOps ops v0 bufs).1)

/-- A named buffer's value after the emitted operations execute. -/
def bufAfter (r : Option (List UOp)) (v0 : ℚ) (bufs : String → ℚ) (k : String) :
    Option ℚ :=
  r.map (fun ops => (applyUOps ops v0 bufs).2 k)

/-- Whether an `assign_sub` on the variable occurs among the emitted ops. -/
def hasAssignSub (ops : List UOp) : Bool :=
  ops.any fun op => match op with
    | UOp.assignSubVar _ => true
    | _ => false

/-- Embeds the step gate of `get_optimizer` (lines 265-268):
`step = cast(equal(mod(manual_step + 1, grad_accumulation), 0), dtype)`. -/
def stepFlag (manualStep gradAccum : ℕ) : ℚ :=
  if (manualStep + 1) % gradAccum = 0 then 1 else 0

/-- Embeds the loss-list selection of `run/train.py` (lines 44-47):

    if params.multi_loss_strategy == "linear":
        loss_list = [loss]
    elif params.multi_loss_strategy == "mgda":
        loss_list = [none_cast(x) for x in loss_list] + [None]

Any other strategy name (including unrecognized ones) leaves the list from the
model build untouched; `none_cast` is a value-preserving dtype cast. -/
def selectLossList (strategy : String) (loss : Option ℚ)
    (lossList : List (Option ℚ)) : List (Option ℚ) :=
  if strategy = "linear" then [loss]
  else if strategy = "mgda" then lossList ++ [none]
  else lossList

/-!
## Macro-batch driver (run/train.py, `get_train_model` lines 35-75)

Only the graph operation-list manipulation is modelled: operations are values
with an identity and a kind (a pure `mtf.Assign`, an `mtf.Variable`
operation, or any other operation).
-/

/-- Kind of a graph operation, as tested by the driver's `isinstance` checks. -/
inductive OpKind where
  | assign
  | varDecl
  | other
deriving DecidableEq, Repr

/-- A graph operation: object identity plus kind. -/
structure MOp where
  id : ℕ
  kind : OpKind
deriving DecidableEq, Repr

/-- Embeds `utils_mtf.deduplicate` (`dict.fromkeys`): remove duplicates while
keeping the first occurrence of each element. -/
def dedupFirst : List MOp → List MOp
  | [] => []
  | x :: xs => x :: dedupFirst (xs.filter (fun y => y ≠ x))
termination_by l => l.length
decreasing_by
  simp only [List.length_cons]
  exact Nat.lt_succ_of_le (List.length_filter_le _ _)

/-- Number of pure assignment operations in an operation list. -/
def countAssign (l : List MOp) : ℕ :=
  (l.filter (fun o => o.kind = OpKind.assign)).length

/-- Embeds the slice loop of `get_train_model` (lines 35-75) acting on the
graph's operation list.  `gops` is `graph.operations`, `allOps` the driver's
`all_ops` accumulator, and each entry of the remaining slice list is the batch
of operations built during that slice.  On a non-final slice the assignment
operations are dropped (`all_ops` keeps only non-`Assign` ops, the graph keeps
only `Variable` ops); on the final slice the retained ops are spliced back in
front of the current operations and the list is deduplicated. -/
def macroSlices : List MOp → List MOp → List (List MOp) → List MOp
  | gops, allOps, [] => dedupFirst (allOps ++ gops)
  | gops, allOps, new :: rest =>
      let ops := gops ++ new
      match rest with
      | [] => dedupFirst (allOps ++ ops)
      | _ :: _ =>
          macroSlices (ops.filter (fun o => o.kind = OpKind.varDecl))
            (allOps ++ ops.filter (fun o => o.kind ≠ OpKind.assign)) rest

/-- The committed operation list after running the driver over all slices. -/
def macroCommit (slices : List (List MOp)) : List MOp :=
  macroSlices [] [] slices

/-!
## Reduce-on-plateau learning-rate divisor (optimizers.py, `get_optimizer`
lines 236-262)
-/

/-- Persistent plateau state: the learning-rate divisor (initialized to one),
the loss window buffer (length `timespan`, zero-initialized), the loss EMA and
the `last_reduce` scalar. -/
structure PlateauState where
  divisor : ℚ
  lossWindow : List ℚ
  lossEma : ℚ
  lastReduce : ℚ
deriving DecidableEq, Repr

/-- Elementwise `(loss_sum - w_j) * one_hot_j` with the running index `j`. -/
def plateauSubAux (pos : ℕ) (lossSum : ℚ) : ℕ → List ℚ → List ℚ
  | _, [] => []
  | j, x :: xs =>
      ((lossSum - x) * (if j = pos then 1 else 0)) :: plateauSubAux pos lossSum (j + 1) xs

/-- The one-hot window subtraction `sub = (loss_sum - loss_window) * one_hot`
(line 247), where the hot position is `global_step mod timespan`. -/
def plateauSub (T gs : ℕ) (lossSum : ℚ) (w : List ℚ) : List ℚ :=
  plateauSubAux (gs % T) lossSum 0 w

/-- The updated window tensor `loss_window = loss_window_ptr - sub` (line 248). -/
def plateauWindowNext (T gs : ℕ) (lossSum : ℚ) (w : List ℚ) : List ℚ :=
  List.zipWith (fun x s => x - s) w (plateauSub T gs lossSum w)

/-- The window mean `reduce_mean(loss_window)` (line 249). -/
def plateauMean (T : ℕ) (w : List ℚ) : ℚ :=
  w.foldl (fun a b => a + b) 0 / (T : ℚ)

/-- The updated EMA (lines 250-251):
`loss_ema = loss_ema_ptr * (2/T) + loss_sum * (1 - 2/T)`. -/
def plateauEmaNext (T : ℕ) (lossSum ema : ℚ) : ℚ :=
  ema * (2 / (T : ℚ)) + lossSum * (1 - 2 / (T : ℚ))

/-- One training step of the plateau logic (lines 246-262).  Returns the new
persistent state together with the firing flag
`logical_and(global_step > last_reduce + T, window_mean > loss_ema)`.
After the flag is cast, the source reassigns
`reduce = reduce * (reduction - 1) + 1` and then uses this reassigned value as
the `weighted_add` interpolation weight when updating `last_reduce`. -/
def plateauStep (T : ℕ) (R : ℚ) (gs : ℕ) (lossSum : ℚ) (st : PlateauState) :
    PlateauState × Bool :=
  let window := plateauWindowNext T gs lossSum st.lossWindow
  let ema := plateauEmaNext T lossSum st.lossEma
  let fire := decide ((gs : ℚ) > st.lastReduce + (T : ℚ)) &&
    decide (plateauMean T window > ema)
  let reduceQ := (if fire then (1 : ℚ) else 0) * (R - 1) + 1
  ({ divisor := st.divisor * reduceQ
     lossWindow := window
     lossEma := ema
     lastReduce := weightedAdd st.lastReduce (gs : ℚ) reduceQ }, fire)

/-- Initial plateau state: `lr_divisor` starts from `tf.ones_initializer()`,
the other buffers from zeros (lines 241-244). -/
def plateauInit (T : ℕ) : PlateauState :=
  ⟨1, List.replicate T 0, 0, 0⟩

/-- Iterate the plateau logic over a sequence of per-step summed losses,
starting at global step `gs`; yields the post-step state and firing flag of
every step. -/
def plateauRunAux (T : ℕ) (R : ℚ) : ℕ → PlateauState → List ℚ →
    List (PlateauState × Bool)
  | _, _, [] => []
  | gs, st, l :: rest =>
      let r := plateauStep T R gs l st
      r :: plateauRunAux T R (gs + 1) r.1 rest

/-- A full run from the initial state at global step 0. -/
def plateauRun (T : ℕ) (R : ℚ) (losses : List ℚ) : List (PlateauState × Bool) :=
  plateauRunAux T R 0 (plateauInit T) losses

/-!
## Concrete sample instances and claim statements
-/

/-- Numeric kernels used for concrete evaluations.  The `rsqrt` stand-in agrees
with the framework's true `rsqrt` at the only input where the evaluated code
paths probe it (`rsqrt (1/4) = 2`). -/
def kSample : NumKernels := ⟨fun x => if x = 1 / 4 then 2 else 0, fun _ => 0⟩

/-- A single-loss sgd configuration: `gradient_clip = 0`, `weight_decay = 0`,
`grad_accumulation = 1`, centralisation / standardisation off, `opt_beta1 = 0`,
`opt_beta2 = 3/4`, `opt_epsilon = 0`. -/
def pSgd : Params := ⟨"sgd", 1, 0, false, 0, false, false, 0, 3 / 4, 0, 1 / 100, 1, 1⟩

/-- The sgd configuration with `grad_accumulation = 2`. -/
def pSgdAcc : Params := { pSgd with gradAccumulation := 2 }

/-- The same configuration with `optimizer = "sm3"`. -/
def pSm3 : Params := { pSgd with optimizer := "sm3" }

/-- A two-dimensional body weight variable. -/
def vBody : UVar := ⟨"body/w0", 2, 4, 5, true, 2⟩

/-- A one-dimensional (bias-shaped) variable. -/
def vBias : UVar := ⟨"body/b0", 1, 4, 5, false, 1⟩

/-- The zero-initialized buffer store (all optimizer state buffers are created
lazily with `tf.zeros_initializer()`). -/
def zeroBufs : String → ℚ := fun _ => 0

/-- Claim C2 as stated: after the reverse walk over the operation list
completes, no accumulation record is left in the pending-gradient map. -/
def c2Stated : Prop :=
  ∀ (lossList : List (Option ℚ)) (ops : List GOp) (xs : List ℕ) (lossTensor : ℕ),
    reverseWalk lossList ops xs lossTensor = some []

/-- Claim C3 as stated (the part that decides it): the mgda weight is derived
from the inner products of the two body gradients accumulated during the
backward passes, so whenever `⟨g1,g2⟩ ≥ ⟨g2,g2⟩` and not `⟨g1,g2⟩ ≥ ⟨g1,g1⟩`,
the run produces `gamma = 0.001`. -/
def c3Stated : Prop :=
  ∀ g1 g2 : List ℚ,
    dot g1 g2 ≥ dot g2 g2 → ¬ dot g1 g2 ≥ dot g1 g1 →
      mgdaRunGamma g1 g2 = 1 / 1000

/-- Claim C5 as stated: for every trainable variable receiving a final
gradient, under single-loss sgd with clipping, decay, accumulation and
standardisation disabled, the emitted update is exactly one `assign_sub` of
`learning_rate * gradient` and the variable's value decreases by it. -/
def c5Stated : Prop :=
  ∀ (K : NumKernels) (p : Params) (v : UVar) (bufs : String → ℚ)
    (step mstep beta1 beta2 lr grad : ℚ),
    p.optimizer = "sgd" → p.gradientClip = 0 → p.weightDecay = 0 →
    p.gradAccumulation = 1 → p.weightCentralisation = false →
    p.weightStandardisation = false →
    updateVar K p v bufs step mstep beta1 beta2 lr grad =
        some [UOp.assignSubVar (lr * grad)] ∧
      varAfter (updateVar K p v bufs step mstep beta1 beta2 lr grad) v.value bufs =
        some (v.value - lr * grad)

/-- Claim C6 as stated (the part that decides it): on an intermediate
gradient-accumulation call (incremented step not divisible by N), no
`assign_sub` on the variable is invoked. -/
def c6Stated : Prop :=
  ∀ (K : NumKernels) (p : Params) (v : UVar) (bufs : String → ℚ)
    (ms : ℕ) (beta1 beta2 lr grad : ℚ) (ops : List UOp),
    1 < p.gradAccumulation → (ms + 1) % p.gradAccumulation ≠ 0 →
    updateVar K p v bufs (stepFlag ms p.gradAccumulation)
        (1 - stepFlag ms p.gradAccumulation) beta1 beta2 lr grad = some ops →
    hasAssignSub ops = false

/-- Claim C7 as stated: an unsupported optimizer or multi-loss-strategy name
makes the program fail before any optimizer graph construction proceeds.  In
the embedding, failing fast means the pipeline yields no normal result: every
per-variable update aborts (`none`) under an unrecognized optimizer, and the
multi-loss block never silently passes a gradient through unchanged under an
unrecognized strategy. -/
def c7Stated : Prop :=
  (∀ (K : NumKernels) (p : Params) (v : UVar) (bufs : String → ℚ)
     (step mstep beta1 beta2 lr grad : ℚ),
     p.optimizer ∉ (["adam", "sgd", "novograd", "sm3", "factorized_adam"] : List String) →
     updateVar K p v bufs step mstep beta1 beta2 lr grad = none) ∧
  (∀ (strategy : String) (numLosses lossIdx : ℕ) (opName : String)
     (grad : List ℚ) (st : MLState),
     strategy ∉ (["linear", "pcgrad", "mgda"] : List String) →
     multiLossAdjust strategy numLosses lossIdx opName grad st ≠ (some grad, st))

/-- Claim C9 as stated (the part that decides it): after a reduction fires at
step `s`, no further reduction fires at any step before `s + timespan`. -/
def c9Stated : Prop :=
  ∀ (T : ℕ) (R : ℚ) (losses : List ℚ) (s t : ℕ) (x y : PlateauState × Bool),
    1 ≤ T → 1 < R →
    (plateauRun T R losses)[s]? = some x → x.2 = true →
    s < t → t < s + T →
    (plateauRun T R losses)[t]? = some y → y.2 = false

/-!
## Helper lemmas
-/

theorem dot_comm (a b : List ℚ) : dot a b = dot b a := by
  induction a generalizing b with
  | nil => cases b <;> simp [dot]
  | cons x xs ih =>
      cases b with
      | nil => simp [dot]
      | cons y ys =>
          simp only [dot, List.zipWith_cons_cons, List.sum_cons] at *
          rw [mul_comm, ih ys]

theorem vsub_vscale_zero (a b : List ℚ) (h : a.length ≤ b.length) :
    vsub a (vscale 0 b) = a := by
  induction a generalizing b with
  | nil => simp [vsub]
  | cons x xs ih =>
      cases b with
      | nil => simp at h
      | cons y ys =>
          simp only [List.length_cons, Nat.succ_le_succ_iff] at h
          simp [vsub, vscale, List.zipWith_cons_cons] at *
          exact ih ys h

/-!
## Claim C1: gradient accumulation across multiple consumers
-/

/-- C1 (code_bug): a tensor's second gradient contribution does not add to the
running sum.  The source line `grad_list[2] = add(loss_list[2], grad)` reads
`loss_list[2]` instead of `grad_list[2]`: under a single loss (`loss_list`
length 1) the index is out of range and graph construction aborts, and with a
third loss entry present the stored gradient becomes `loss_list[2] + g2`
(here `7 + 20 = 27`), not the sum `g1 + g2 = 30` of the two partial
contributions. -/
theorem c1_accumulation_code_bug :
    contribute [some 1] [(0, ⟨0, 1, ⟨10, 1⟩⟩)] 0 ⟨20, 1⟩ = none ∧
    contribute [some 5, some 6, some 7] [(0, ⟨0, 1, ⟨10, 1⟩⟩)] 0 ⟨20, 1⟩ =
      some [(0, ⟨0, 2, ⟨27, 2⟩⟩)] ∧
    (27 : ℚ) ≠ 10 + 20 := by
  refine ⟨rfl, ?_, by norm_num⟩
  norm_num [contribute, alookup, areplace, List.find?]

/-!
## Claim C2: accumulation-record removal during the reverse walk
-/

/-- C2 (counterexample): the pending-gradient map is not emptied by the walk.
In the two-operation graph `variable → op → loss` (the op's gradient for its
single input is produced by a two-input operation), both the loss record and
the variable-output record survive the walk: a record is only deleted when the
producer-visit counter (at most 1) equals the input arity of the accumulated
gradient's producing operation. -/
theorem c2_removal_counterexample : ¬ c2Stated := by
  intro h
  have hx := h [some 1] [⟨[], [0], false, []⟩, ⟨[0], [1], true, [some ⟨3, 2⟩]⟩] [0] 1
  rw [show reverseWalk [some 1] [⟨[], [0], false, []⟩, ⟨[0], [1], true, [some ⟨3, 2⟩]⟩] [0] 1 =
      some [(1, ⟨1, 0, ⟨1, 0⟩⟩), (0, ⟨1, 1, ⟨3, 2⟩⟩)] from rfl] at hx
  simp at hx

/-- C2 (amended): for a tensor with a pending record, the gather step of the
reverse walk returns the accumulated gradient, and the record is removed
precisely when the incremented seen-count equals
`len(accumulated_gradient.operation.inputs)`; otherwise the record stays with
its seen-count incremented (so records whose gradient arity never matches leak
past the walk). -/
theorem c2_removal_amended (m : List (ℕ × GradRecord)) (out : ℕ) (r : GradRecord)
    (h : alookup m out = some r) :
    (gatherOne m out).1 = some r.grad ∧
    (r.seen + 1 = r.grad.arity → (gatherOne m out).2 = aerase m out) ∧
    (r.seen + 1 ≠ r.grad.arity →
      (gatherOne m out).2 = areplace m out ⟨r.seen + 1, r.contribs, r.grad⟩) := by
  unfold gatherOne
  rw [h]
  by_cases hc : r.seen + 1 = r.grad.arity
  · exact ⟨by simp [hc], fun _ => by simp [hc], fun hne => absurd hc hne⟩
  · exact ⟨by simp [hc], fun heq => absurd heq hc, fun _ => by simp [hc]⟩

/-- Witness for the amended C2 theorem at a concrete record: with seen-count 0
and gradient arity 1 the record is deleted on the producer visit. -/
theorem c2_removal_amended_witness :
    (gatherOne [(0, ⟨0, 1, ⟨3, 1⟩⟩)] 0).1 = some ⟨3, 1⟩ ∧
    (gatherOne [(0, ⟨0, 1, ⟨3, 1⟩⟩)] 0).2 = aerase [(0, ⟨0, 1, ⟨3, 1⟩⟩)] 0 := by
  refine ⟨(c2_removal_amended [(0, ⟨0, 1, ⟨3, 1⟩⟩)] 0 ⟨0, 1, ⟨3, 1⟩⟩ rfl).1, ?_⟩
  exact (c2_removal_amended [(0, ⟨0, 1, ⟨3, 1⟩⟩)] 0 ⟨0, 1, ⟨3, 1⟩⟩ rfl).2.1 rfl

/-!
## Claim C3: the mgda combination weight
-/

/-- C3 (counterexample): for body gradients `g1 = [2]`, `g2 = [1]` we have
`⟨g1,g2⟩ = 2 ≥ 1 = ⟨g2,g2⟩` and `⟨g1,g2⟩ = 2 < 4 = ⟨g1,g1⟩`, so the claim
demands `gamma = 0.001`; the code produces `gamma = 0.999` because the
inner-product accumulation block is unreachable and all three accumulators
stay zero. -/
theorem mgda_strategy_noop (numLosses lossIdx : ℕ) (opName : String)
    (grad : List ℚ) (st : MLState) :
    multiLossAdjust "mgda" numLosses lossIdx opName grad st = (some grad, st) := by
  unfold multiLossAdjust
  split <;> simp

theorem mgdaGamma_zero : mgdaGamma 0 0 0 = 999 / 1000 := by
  unfold mgdaGamma
  norm_num

theorem mgdaRunGamma_const (g1 g2 : List ℚ) : mgdaRunGamma g1 g2 = 999 / 1000 := by
  simp only [mgdaRunGamma, mgda_strategy_noop]
  exact mgdaGamma_zero

theorem c3_gamma_counterexample : ¬ c3Stated := by
  intro h
  have hx := h [2] [1] (by norm_num [dot]) (by norm_num [dot])
  rw [mgdaRunGamma_const] at hx
  norm_num at hx

/-- C3 (amended): under the mgda strategy the multi-loss block of `update`
never stores or accumulates anything (its mgda branch is nested inside the
pcgrad branch and is unreachable), so every run derives `gamma` from
`v11 = v12 = v22 = 0` and — in exact arithmetic, where the `0/0` term is
masked — always produces `gamma = 0.999`.  The clamp branches of the formula
itself do hold: `v12 ≥ v11` gives `0.999`, and otherwise `v12 ≥ v22` gives
`0.001`. -/
theorem c3_gamma_amended :
    (∀ (numLosses lossIdx : ℕ) (opName : String) (grad : List ℚ) (st : MLState),
       multiLossAdjust "mgda" numLosses lossIdx opName grad st = (some grad, st)) ∧
    (∀ g1 g2 : List ℚ, mgdaRunGamma g1 g2 = 999 / 1000) ∧
    (∀ v11 v12 v22 : ℚ, v12 ≥ v11 → mgdaGamma v11 v12 v22 = 999 / 1000) ∧
    (∀ v11 v12 v22 : ℚ, ¬ v12 ≥ v11 → v12 ≥ v22 → mgdaGamma v11 v12 v22 = 1 / 1000) := by
  refine ⟨mgda_strategy_noop, mgdaRunGamma_const, ?_, ?_⟩
  · intro v11 v12 v22 hge
    unfold mgdaGamma
    rw [if_pos hge]
    norm_num
  · intro v11 v12 v22 hlt hge
    unfold mgdaGamma
    rw [if_neg hlt, if_pos hge]
    norm_num

/-- Witness for the amended C3 theorem: the always-0.999 run on concrete
gradients and the second clamp branch at concrete inner products. -/
theorem c3_gamma_amended_witness :
    mgdaGamma 0 0 0 = 999 / 1000 ∧ mgdaGamma 4 2 1 = 1 / 1000 :=
  ⟨c3_gamma_amended.2.2.1 0 0 0 le_rfl,
   c3_gamma_amended.2.2.2 4 2 1 (by norm_num) (by norm_num)⟩

/-!
## Claim C4: pcgrad on non-conflicting gradients
-/

/-- C4 (confirmed): when the two body gradients do not conflict (their dot
product is non-negative), both projection steps of the pcgrad loop subtract a
zero multiple, and the combined gradient is the plain sum of the two input
gradients. -/
theorem c4_pcgrad_sum (g f : List ℚ) (hlen : g.length = f.length)
    (hdot : 0 ≤ dot g f) : pcgradCombine g f = vadd g f := by
  have h1 : min (dot g f) 0 = 0 := min_eq_right hdot
  have h2 : min (dot f g) 0 = 0 := by rw [dot_comm f g]; exact min_eq_right hdot
  have hgf := vsub_vscale_zero g f hlen.le
  have hfg := vsub_vscale_zero f g hlen.ge
  simp [pcgradCombine, pcgradPass, pcgradInner, addN, h1, h2, zero_div, hgf, hfg]

/-- Witness for C4 at concrete non-conflicting gradients. -/
theorem c4_pcgrad_sum_witness :
    (0 : ℚ) ≤ dot [1, 2] [3, 4] ∧ pcgradCombine [1, 2] [3, 4] = vadd [1, 2] [3, 4] :=
  ⟨by norm_num [dot], c4_pcgrad_sum [1, 2] [3, 4] rfl (by norm_num [dot])⟩

/-!
## Claim C5: the plain sgd update
-/

/-- C5 (counterexample): the claim fails for one-dimensional variables.  Under
`optimizer = "sgd"` a bias-shaped variable is routed through the adam branch,
so its update is `grad * rsqrt(v2 + eps) * lr` (here `2` with the true
`rsqrt (1/4) = 2`), not `lr * grad = 1`, and an extra second-moment buffer
assignment is emitted. -/
theorem c5_sgd_counterexample : ¬ c5Stated := by
  intro h
  have hx := (h kSample pSgd vBias zeroBufs 1 0 0 (3 / 4) 1 1 rfl rfl rfl rfl rfl rfl).1
  have hv : updateVar kSample pSgd vBias zeroBufs 1 0 0 (3 / 4) 1 1 =
      some [UOp.assignBuf "exp_avg_p2" (1 / 4), UOp.assignSubVar 2] := by
    norm_num [updateVar, pSgd, vBias, kSample, zeroBufs, weightedAdd,
      (show strContains "body/b0" "rezero" = false from by decide)]
  rw [hv] at hx
  simp at hx

/-- C5 (amended): for every trainable variable with at least two shape
dimensions and no `rezero` tag in its name, under single-loss sgd with
`gradient_clip = 0`, `weight_decay = 0`, `grad_accumulation = 1` and
centralisation / standardisation disabled, the emitted update is exactly one
`assign_sub` of `learning_rate * gradient`, and the variable's value after the
assignment is its previous value minus `learning_rate * gradient`. -/
theorem c5_sgd_amended (K : NumKernels) (p : Params) (v : UVar) (bufs : String → ℚ)
    (step mstep beta1 beta2 lr grad : ℚ)
    (hopt : p.optimizer = "sgd") (hclip : p.gradientClip = 0) (hwd : p.weightDecay = 0)
    (hacc : p.gradAccumulation = 1) (hcent : p.weightCentralisation = false)
    (hstd : p.weightStandardisation = false) (hnd : 2 ≤ v.ndims)
    (hrez : strContains v.name "rezero" = false) :
    updateVar K p v bufs step mstep beta1 beta2 lr grad =
      some [UOp.assignSubVar (lr * grad)] ∧
    varAfter (updateVar K p v bufs step mstep beta1 beta2 lr grad) v.value bufs =
      some (v.value - lr * grad) := by
  have hnle : ¬ (v.ndims ≤ 1) := by omega
  have he : updateVar K p v bufs step mstep beta1 beta2 lr grad =
      some [UOp.assignSubVar (lr * grad)] := by
    norm_num [updateVar, hopt, hclip, hwd, hacc, hcent, hstd, hrez, hnle,
      (show (("sgd" : String) = "adam") ↔ False from by simp), mul_comm]
  refine ⟨he, ?_⟩
  rw [he]
  simp [varAfter, applyUOps]

/-- Witness for the amended C5 theorem at a concrete body weight. -/
theorem c5_sgd_amended_witness :
    updateVar kSample pSgd vBody zeroBufs 1 0 0 (3 / 4) (1 / 2) 3 =
      some [UOp.assignSubVar ((1 / 2) * 3)] ∧
    varAfter (updateVar kSample pSgd vBody zeroBufs 1 0 0 (3 / 4) (1 / 2) 3)
        vBody.value zeroBufs = some (vBody.value - (1 / 2) * 3) :=
  c5_sgd_amended kSample pSgd vBody zeroBufs 1 0 0 (3 / 4) (1 / 2) 3
    rfl rfl rfl rfl rfl rfl (by decide) (by decide)

/-!
## Claim C6: gradient accumulation across calls
-/

/-- C6 (counterexample): on an intermediate gradient-accumulation call an
`assign_sub` on the variable is still emitted (with operand 0); the claim that
no `assign_sub` is invoked fails at `N = 2`, `manual_step = 0`. -/
theorem c6_accum_counterexample : ¬ c6Stated := by
  intro h
  have hv : updateVar kSample pSgdAcc vBody zeroBufs (stepFlag 0 2) (1 - stepFlag 0 2)
      0 (3 / 4) (1 / 2) 3 =
      some [UOp.assignBuf "grad_accumulation" 3, UOp.assignSubVar 0] := by
    norm_num [updateVar, stepFlag, pSgdAcc, pSgd, vBody, kSample, zeroBufs, weightedAdd,
      (show (("sgd" : String) = "adam") ↔ False from by simp),
      (show strContains "body/w0" "rezero" = false from by decide)]
  have hx := h kSample pSgdAcc vBody zeroBufs 0 0 (3 / 4) (1 / 2) 3
    [UOp.assignBuf "grad_accumulation" 3, UOp.assignSubVar 0]
    (by norm_num [pSgdAcc, pSgd]) (by norm_num [pSgdAcc, pSgd]) hv
  simp [hasAssignSub] at hx

/-- C6 (amended): with `grad_accumulation = N > 1` under the sgd configuration,
on a call with `(manual_step + 1) mod N ≠ 0` the accumulation buffer grows by
the new gradient, the variable's value is unchanged, and an `assign_sub` is
still emitted (its operand is identically zero because the update is multiplied
by the step gate 0); on a call with `(manual_step + 1) mod N = 0` the buffer is
reset to zero and the variable is decremented by
`learning_rate * (gradient + buffer) / N`. -/
theorem c6_accum_amended (K : NumKernels) (p : Params) (v : UVar) (bufs : String → ℚ)
    (ms : ℕ) (beta1 beta2 lr grad : ℚ)
    (hopt : p.optimizer = "sgd") (hclip : p.gradientClip = 0) (hwd : p.weightDecay = 0)
    (hcent : p.weightCentralisation = false) (hstd : p.weightStandardisation = false)
    (hnd : 2 ≤ v.ndims) (hrez : strContains v.name "rezero" = false)
    (hN : 1 < p.gradAccumulation) :
    ((ms + 1) % p.gradAccumulation ≠ 0 →
      varAfter (updateVar K p v bufs (stepFlag ms p.gradAccumulation)
          (1 - stepFlag ms p.gradAccumulation) beta1 beta2 lr grad) v.value bufs =
        some v.value ∧
      bufAfter (updateVar K p v bufs (stepFlag ms p.gradAccumulation)
          (1 - stepFlag ms p.gradAccumulation) beta1 beta2 lr grad) v.value bufs
          "grad_accumulation" =
        some (grad + bufs "grad_accumulation") ∧
      (updateVar K p v bufs (stepFlag ms p.gradAccumulation)
          (1 - stepFlag ms p.gradAccumulation) beta1 beta2 lr grad).map hasAssignSub =
        some true) ∧
    ((ms + 1) % p.gradAccumulation = 0 →
      varAfter (updateVar K p v bufs (stepFlag ms p.gradAccumulation)
          (1 - stepFlag ms p.gradAccumulation) beta1 beta2 lr grad) v.value bufs =
        some (v.value - lr * ((grad + bufs "grad_accumulation") /
          (p.gradAccumulation : ℚ))) ∧
      bufAfter (updateVar K p v bufs (stepFlag ms p.gradAccumulation)
          (1 - stepFlag ms p.gradAccumulation) beta1 beta2 lr grad) v.value bufs
          "grad_accumulation" =
        some 0) := by
  have hnle : ¬ (v.ndims ≤ 1) := by omega
  have hgt : p.gradAccumulation > 1 := hN
  constructor
  · intro hm
    have hstep : stepFlag ms p.gradAccumulation = 0 := by simp [stepFlag, hm]
    rw [hstep]
    have he : updateVar K p v bufs 0 (1 - 0) beta1 beta2 lr grad =
        some [UOp.assignBuf "grad_accumulation" ((grad + bufs "grad_accumulation") * (1 - 0)),
              UOp.assignSubVar ((grad + bufs "grad_accumulation") * 0 *
                (1 / (p.gradAccumulation : ℚ)) * lr * 0)] := by
      norm_num [updateVar, hopt, hclip, hwd, hcent, hstd, hrez, hnle, hgt,
        (show (("sgd" : String) = "adam") ↔ False from by simp)]
    rw [he]
    refine ⟨?_, ?_, ?_⟩ <;> simp [varAfter, bufAfter, applyUOps, hasAssignSub]
  · intro hm
    have hstep : stepFlag ms p.gradAccumulation = 1 := by simp [stepFlag, hm]
    rw [hstep]
    have he : updateVar K p v bufs 1 (1 - 1) beta1 beta2 lr grad =
        some [UOp.assignBuf "grad_accumulation" ((grad + bufs "grad_accumulation") * (1 - 1)),
              UOp.assignSubVar ((grad + bufs "grad_accumulation") * 1 *
                (1 / (p.gradAccumulation : ℚ)) * lr * 1)] := by
      norm_num [updateVar, hopt, hclip, hwd, hcent, hstd, hrez, hnle, hgt,
        (show (("sgd" : String) = "adam") ↔ False from by simp)]
    rw [he]
    refine ⟨?_, ?_⟩
    · simp [varAfter, applyUOps]
      ring
    · simp [bufAfter, applyUOps]

/-- Witness for the amended C6 theorem: one intermediate call (`manual_step = 0`)
and one committing call (`manual_step = 1`) at `N = 2`. -/
theorem c6_accum_amended_witness :
    (varAfter (updateVar kSample pSgdAcc vBody zeroBufs (stepFlag 0 2) (1 - stepFlag 0 2)
        0 (3 / 4) (1 / 2) 3) vBody.value zeroBufs = some vBody.value ∧
     bufAfter (updateVar kSample pSgdAcc vBody zeroBufs (stepFlag 0 2) (1 - stepFlag 0 2)
        0 (3 / 4) (1 / 2) 3) vBody.value zeroBufs "grad_accumulation" =
       some (3 + zeroBufs "grad_accumulation") ∧
     (updateVar kSample pSgdAcc vBody zeroBufs (stepFlag 0 2) (1 - stepFlag 0 2)
        0 (3 / 4) (1 / 2) 3).map hasAssignSub = some true) ∧
    (varAfter (updateVar kSample pSgdAcc vBody zeroBufs (stepFlag 1 2) (1 - stepFlag 1 2)
        0 (3 / 4) (1 / 2) 3) vBody.value zeroBufs =
       some (vBody.value - (1 / 2) * ((3 + zeroBufs "grad_accumulation") / (2 : ℚ))) ∧
     bufAfter (updateVar kSample pSgdAcc vBody zeroBufs (stepFlag 1 2) (1 - stepFlag 1 2)
        0 (3 / 4) (1 / 2) 3) vBody.value zeroBufs "grad_accumulation" = some 0) :=
  ⟨(c6_accum_amended kSample pSgdAcc vBody zeroBufs 0 0 (3 / 4) (1 / 2) 3
      rfl rfl rfl rfl rfl (by decide) (by decide) (by decide)).1 (by decide),
   (c6_accum_amended kSample pSgdAcc vBody zeroBufs 1 0 (3 / 4) (1 / 2) 3
      rfl rfl rfl rfl rfl (by decide) (by decide) (by decide)).2 (by decide)⟩

/-!
## Claim C7: configuration validation
-/

/-- C7 (counterexample): an unsupported optimizer name does not make the
pipeline fail: for a one-dimensional variable the update silently proceeds
through the adam branch and emits ordinary update operations. -/
theorem c7_validation_counterexample : ¬ c7Stated := by
  intro h
  have hx := h.1 kSample { pSgd with optimizer := "definitely_invalid" } vBias zeroBufs
    1 0 0 (3 / 4) 1 1 (by decide)
  have hv : updateVar kSample { pSgd with optimizer := "definitely_invalid" } vBias
      zeroBufs 1 0 0 (3 / 4) 1 1 =
      some [UOp.assignBuf "exp_avg_p2" (1 / 4), UOp.assignSubVar 2] := by
    norm_num [updateVar, pSgd, vBias, kSample, zeroBufs, weightedAdd,
      (show strContains "body/b0" "rezero" = false from by decide)]
  rw [hv] at hx
  simp at hx

/-- C7 (amended): no configuration validation exists.  An unrecognized
multi-loss-strategy name leaves the loss list from the model build untouched
(the run silently proceeds exactly as with no strategy), and an unrecognized
optimizer name (including the spec-listed `factorized_adam`, which has no
branch) makes the per-variable update of any variable with at least two
dimensions fall through every dispatch branch, aborting graph construction
mid-way with an unbound `weight_update` instead of a startup validation
error. -/
theorem c7_validation_amended :
    (∀ (strategy : String) (loss : Option ℚ) (lossList : List (Option ℚ)),
       strategy ≠ "linear" → strategy ≠ "mgda" →
       selectLossList strategy loss lossList = lossList) ∧
    (∀ (K : NumKernels) (p : Params) (v : UVar) (bufs : String → ℚ)
       (step mstep beta1 beta2 lr grad : ℚ),
       p.optimizer ≠ "adam" → p.optimizer ≠ "sgd" → p.optimizer ≠ "novograd" →
       p.optimizer ≠ "sm3" → 2 ≤ v.ndims →
       updateVar K p v bufs step mstep beta1 beta2 lr grad = none) := by
  constructor
  · intro strategy loss lossList h1 h2
    simp [selectLossList, h1, h2]
  · intro K p v bufs step mstep beta1 beta2 lr grad h1 h2 h3 h4 hnd
    have hnle : ¬ (v.ndims ≤ 1) := by omega
    simp [updateVar, hnle, h1, h2, h3, h4]

/-- Witness for the amended C7 theorem: the bogus strategy passes through and
the bogus optimizer aborts on a two-dimensional variable. -/
theorem c7_validation_amended_witness :
    selectLossList "definitely_invalid" (some 1) [some 1, some 2] = [some 1, some 2] ∧
    updateVar kSample { pSgd with optimizer := "definitely_invalid" } vBody zeroBufs
      1 0 0 (3 / 4) 1 1 = none :=
  ⟨c7_validation_amended.1 "definitely_invalid" (some 1) [some 1, some 2]
      (by decide) (by decide),
   c7_validation_amended.2 kSample { pSgd with optimizer := "definitely_invalid" }
      vBody zeroBufs 1 0 0 (3 / 4) 1 1 (by decide) (by decide) (by decide) (by decide)
      (by decide)⟩

/-!
## Claim C10: small variables always use the adam rule
-/

/-- C10 (confirmed): for any configured optimizer name, a trainable variable
with at most one shape dimension is updated through the adam branch
(second-moment EMA, optional first-moment EMA via `opt_beta1`, `rsqrt`
scaling): the update pipeline behaves exactly as it would with
`optimizer = "adam"`, because the dispatch tests `var.shape.ndims <= 1` before
any optimizer name. -/
theorem c10_small_var_adam (K : NumKernels) (p : Params) (v : UVar)
    (bufs : String → ℚ) (step mstep beta1 beta2 lr grad : ℚ)
    (hnd : v.ndims ≤ 1) :
    updateVar K p v bufs step mstep beta1 beta2 lr grad =
      updateVar K { p with optimizer := "adam" } v bufs step mstep beta1 beta2 lr grad := by
  simp [updateVar, hnd]

/-- Witness for C10: a bias-shaped variable under `optimizer = "sm3"` takes the
adam path. -/
theorem c10_small_var_adam_witness :
    updateVar kSample pSm3 vBias zeroBufs 1 0 0 (3 / 4) 1 1 =
      updateVar kSample { pSm3 with optimizer := "adam" } vBias zeroBufs 1 0 0 (3 / 4) 1 1 :=
  c10_small_var_adam kSample pSm3 vBias zeroBufs 1 0 0 (3 / 4) 1 1 (by decide)

/-!
## Claim C8: macro-batch assignment discarding
-/

theorem mem_dedupFirst (l : List MOp) : ∀ a : MOp, a ∈ dedupFirst l ↔ a ∈ l := by
  induction l using dedupFirst.induct with
  | case1 => intro a; rw [dedupFirst]
  | case2 x xs ih =>
      intro a
      rw [dedupFirst, List.mem_cons, List.mem_cons, ih a]
      by_cases hax : a = x
      · simp [hax]
      · simp [List.mem_filter, hax]

theorem dedupFirst_filter (l : List MOp) :
    ∀ p : MOp → Bool, dedupFirst (l.filter p) = (dedupFirst l).filter p := by
  induction l using dedupFirst.induct with
  | case1 => intro p; simp [dedupFirst]
  | case2 x xs ih =>
      intro p
      by_cases hp : p x
      · rw [List.filter_cons_of_pos hp, dedupFirst, dedupFirst,
          List.filter_cons_of_pos hp, ← ih p, List.filter_comm]
      · rw [List.filter_cons_of_neg hp, dedupFirst,
          List.filter_cons_of_neg hp, ← ih p, List.filter_comm]
        congr 1
        refine ((List.filter_eq_self).mpr ?_).symm
        intro a ha
        rcases List.mem_filter.mp ha with ⟨_, hpa⟩
        have hax : a ≠ x := by
          intro hax
          rw [hax] at hpa
          exact hp hpa
        simpa using hax

theorem countAssign_dedupFirst_append (P s : List MOp)
    (hP : ∀ x ∈ P, x.kind ≠ OpKind.assign) :
    countAssign (dedupFirst (P ++ s)) = countAssign (dedupFirst s) := by
  unfold countAssign
  rw [← dedupFirst_filter, ← dedupFirst_filter, List.filter_append]
  have hnil : P.filter (fun o => decide (o.kind = OpKind.assign)) = [] := by
    rw [List.filter_eq_nil_iff]
    intro a ha
    simpa using hP a ha
  rw [hnil, List.nil_append]

/-- C8 (confirmed): with `macro_batching = 2`, the committed graph has exactly
as many assignment operations as a one-slice run that builds the final slice's
operations; every non-assignment operation of the discarded slice is retained,
and every assignment in the committed graph comes from the final slice (no
assignment from the intermediate slice leaks). -/
theorem c8_macro_assign (s1 s2 : List MOp) :
    countAssign (macroCommit [s1, s2]) = countAssign (macroCommit [s2]) ∧
    (∀ x ∈ s1, x.kind ≠ OpKind.assign → x ∈ macroCommit [s1, s2]) ∧
    (∀ x ∈ macroCommit [s1, s2], x.kind = OpKind.assign → x ∈ s2) := by
  have hc2 : macroCommit [s1, s2] =
      dedupFirst (s1.filter (fun o => o.kind ≠ OpKind.assign) ++
        (s1.filter (fun o => o.kind = OpKind.varDecl) ++ s2)) := by
    simp [macroCommit, macroSlices]
  have hc1 : macroCommit [s2] = dedupFirst s2 := by
    simp [macroCommit, macroSlices]
  have hPa : ∀ x ∈ s1.filter (fun o => o.kind ≠ OpKind.assign),
      x.kind ≠ OpKind.assign := by
    intro x hx
    have := (List.mem_filter.mp hx).2
    simpa using this
  have hPv : ∀ x ∈ s1.filter (fun o => o.kind = OpKind.varDecl),
      x.kind ≠ OpKind.assign := by
    intro x hx
    have := (List.mem_filter.mp hx).2
    simp at this
    simp [this]
  refine ⟨?_, ?_, ?_⟩
  · rw [hc2, hc1, countAssign_dedupFirst_append _ _ hPa,
      countAssign_dedupFirst_append _ _ hPv]
  · intro x hx hk
    rw [hc2, mem_dedupFirst]
    exact List.mem_append_left _ (List.mem_filter.mpr ⟨hx, by simpa using hk⟩)
  · intro x hx hk
    rw [hc2, mem_dedupFirst] at hx
    rcases List.mem_append.mp hx with hx1 | hx2
    · exact absurd hk (hPa x hx1)
    · rcases List.mem_append.mp hx2 with hx3 | hx4
      · exact absurd hk (hPv x hx3)
      · exact hx4

/-- Witness for C8 at concrete slices. -/
theorem c8_macro_assign_witness :
    countAssign (macroCommit [[⟨1, OpKind.other⟩, ⟨2, OpKind.assign⟩, ⟨3, OpKind.varDecl⟩],
        [⟨4, OpKind.other⟩, ⟨5, OpKind.assign⟩, ⟨3, OpKind.varDecl⟩]]) =
      countAssign (macroCommit [[⟨4, OpKind.other⟩, ⟨5, OpKind.assign⟩, ⟨3, OpKind.varDecl⟩]]) :=
  (c8_macro_assign [⟨1, OpKind.other⟩, ⟨2, OpKind.assign⟩, ⟨3, OpKind.varDecl⟩]
    [⟨4, OpKind.other⟩, ⟨5, OpKind.assign⟩, ⟨3, OpKind.varDecl⟩]).1

/-!
## Claim C9: reduce-on-plateau temporal behavior
-/

theorem plateauStep_fire_iff (T : ℕ) (R : ℚ) (gs : ℕ) (loss : ℚ) (st : PlateauState) :
    (plateauStep T R gs loss st).2 = true ↔
      ((gs : ℚ) > st.lastReduce + (T : ℚ) ∧
       plateauMean T (plateauWindowNext T gs loss st.lossWindow) >
         plateauEmaNext T loss st.lossEma) := by
  simp [plateauStep]

theorem plateauStep_fired (T : ℕ) (R : ℚ) (gs : ℕ) (loss : ℚ) (st : PlateauState)
    (h : (plateauStep T R gs loss st).2 = true) :
    (plateauStep T R gs loss st).1.divisor = st.divisor * R ∧
    (plateauStep T R gs loss st).1.lastReduce =
      st.lastReduce * R + (gs : ℚ) * (1 - R) := by
  rcases (plateauStep_fire_iff T R gs loss st).mp h with ⟨h1, h2⟩
  constructor
  · simp [plateauStep, weightedAdd, h1, h2]
  · simp [plateauStep, weightedAdd, h1, h2]

theorem plateauStep_not_fired (T : ℕ) (R : ℚ) (gs : ℕ) (loss : ℚ) (st : PlateauState)
    (h : (plateauStep T R gs loss st).2 = false) :
    (plateauStep T R gs loss st).1.divisor = st.divisor ∧
    (plateauStep T R gs loss st).1.lastReduce = st.lastReduce := by
  have hn : ¬ ((gs : ℚ) > st.lastReduce + (T : ℚ) ∧
      plateauMean T (plateauWindowNext T gs loss st.lossWindow) >
        plateauEmaNext T loss st.lossEma) := by
    rw [← plateauStep_fire_iff T R gs loss st]
    simp [h]
  constructor
  · simp [plateauStep, weightedAdd, hn]
  · simp [plateauStep, weightedAdd, hn]

theorem plateauStep_divisor_mono (T : ℕ) (R : ℚ) (gs : ℕ) (loss : ℚ)
    (st : PlateauState) (hR : 1 ≤ R) (hd : 0 ≤ st.divisor) :
    st.divisor ≤ (plateauStep T R gs loss st).1.divisor := by
  by_cases h : (plateauStep T R gs loss st).2 = true
  · rw [(plateauStep_fired T R gs loss st h).1]
    calc st.divisor = st.divisor * 1 := (mul_one _).symm
    _ ≤ st.divisor * R := mul_le_mul_of_nonneg_left hR hd
  · rw [(plateauStep_not_fired T R gs loss st (by simpa using h)).1]

theorem plateauRunAux_divisor_nonneg (T : ℕ) (R : ℚ) (hR : 1 ≤ R) :
    ∀ (losses : List ℚ) (gs : ℕ) (st : PlateauState), 0 ≤ st.divisor →
      ∀ (i : ℕ) (x : PlateauState × Bool),
        (plateauRunAux T R gs st losses)[i]? = some x → 0 ≤ x.1.divisor := by
  intro losses
  induction losses with
  | nil => intro gs st _ i x hx; simp [plateauRunAux] at hx
  | cons l rest ih =>
      intro gs st hst i x hx
      have hd' : 0 ≤ (plateauStep T R gs l st).1.divisor :=
        le_trans hst (plateauStep_divisor_mono T R gs l st hR hst)
      cases i with
      | zero =>
          simp [plateauRunAux] at hx
          rw [← hx]
          exact hd'
      | succ i' =>
          simp [plateauRunAux] at hx
          exact ih (gs + 1) (plateauStep T R gs l st).1 hd' i' x hx

theorem plateauRunAux_consec (T : ℕ) (R : ℚ) :
    ∀ (losses : List ℚ) (gs : ℕ) (st : PlateauState) (i : ℕ)
      (x y : PlateauState × Bool),
      (plateauRunAux T R gs st losses)[i]? = some x →
      (plateauRunAux T R gs st losses)[i + 1]? = some y →
      ∃ l, y = plateauStep T R (gs + i + 1) l x.1 := by
  intro losses
  induction losses with
  | nil => intro gs st i x y hx _; simp [plateauRunAux] at hx
  | cons l rest ih =>
      intro gs st i x y hx hy
      cases i with
      | zero =>
          simp [plateauRunAux] at hx hy
          cases rest with
          | nil => simp [plateauRunAux] at hy
          | cons l' rest' =>
              simp [plateauRunAux] at hy
              exact ⟨l', by rw [← hy, ← hx]⟩
      | succ i' =>
          simp [plateauRunAux] at hx hy
          obtain ⟨l'', h⟩ := ih (gs + 1) (plateauStep T R gs l st).1 i' x y hx hy
          refine ⟨l'', ?_⟩
          rw [show gs + (i' + 1) + 1 = gs + 1 + i' + 1 from by omega]
          exact h

/-- C9 (counterexample): with `timespan = 2`, `reduction = 2` and constant loss
`-1`, a reduction fires at step 3 and again at step 4 `< 3 + 2`: on firing
steps `last_reduce` is updated with the reassigned multiplier as the
`weighted_add` weight (`last_reduce * R + step * (1 - R)`, here `-3`), so the
elapsed-time guard immediately re-opens instead of blocking for `timespan`
steps. -/
theorem c9_plateau_counterexample : ¬ c9Stated := by
  intro h
  have hrun : plateauRun 2 2 [-1, -1, -1, -1, -1] =
      [(⟨1, [1, 0], 0, 0⟩, false), (⟨1, [1, 1], 0, 0⟩, false),
       (⟨1, [3, 1], 0, 0⟩, false), (⟨2, [3, 3], 0, -3⟩, true),
       (⟨4, [7, 3], 0, -10⟩, true)] := by
    norm_num [plateauRun, plateauRunAux, plateauStep, plateauInit, plateauWindowNext,
      plateauSub, plateauSubAux, plateauMean, plateauEmaNext, weightedAdd,
      List.replicate, List.zipWith, List.foldl]
  have hx := h 2 2 [-1, -1, -1, -1, -1] 3 4 (⟨2, [3, 3], 0, -3⟩, true)
    (⟨4, [7, 3], 0, -10⟩, true) (by norm_num) (by norm_num)
    (by rw [hrun]; rfl) rfl (by norm_num) (by norm_num) (by rw [hrun]; rfl)
  simp at hx

/-- C9 (amended): the divisor is multiplied by the reduction factor exactly on
steps where `global_step > last_reduce + timespan` and the updated window mean
exceeds the updated loss EMA; on a firing step `last_reduce` becomes
`last_reduce * R + step * (1 - R)` (not the firing step index, because the
reassigned multiplier is used as the interpolation weight), on a non-firing
step the state guard values are unchanged; and the divisor never decreases
along any run. -/
theorem c9_plateau_amended (T : ℕ) (R : ℚ) (hR : 1 ≤ R) :
    (∀ (gs : ℕ) (loss : ℚ) (st : PlateauState),
       (plateauStep T R gs loss st).2 = true ↔
         ((gs : ℚ) > st.lastReduce + (T : ℚ) ∧
          plateauMean T (plateauWindowNext T gs loss st.lossWindow) >
            plateauEmaNext T loss st.lossEma)) ∧
    (∀ (gs : ℕ) (loss : ℚ) (st : PlateauState),
       (plateauStep T R gs loss st).2 = true →
       (plateauStep T R gs loss st).1.divisor = st.divisor * R ∧
       (plateauStep T R gs loss st).1.lastReduce =
         st.lastReduce * R + (gs : ℚ) * (1 - R)) ∧
    (∀ (gs : ℕ) (loss : ℚ) (st : PlateauState),
       (plateauStep T R gs loss st).2 = false →
       (plateauStep T R gs loss st).1.divisor = st.divisor ∧
       (plateauStep T R gs loss st).1.lastReduce = st.lastReduce) ∧
    (∀ (losses : List ℚ) (i : ℕ) (x y : PlateauState × Bool),
       (plateauRun T R losses)[i]? = some x →
       (plateauRun T R losses)[i + 1]? = some y →
       x.1.divisor ≤ y.1.divisor) := by
  refine ⟨plateauStep_fire_iff T R, plateauStep_fired T R, plateauStep_not_fired T R, ?_⟩
  intro losses i x y hx hy
  have h0 : 0 ≤ x.1.divisor :=
    plateauRunAux_divisor_nonneg T R hR losses 0 (plateauInit T)
      (by norm_num [plateauInit]) i x hx
  obtain ⟨l, hl⟩ := plateauRunAux_consec T R losses 0 (plateauInit T) i x y hx hy
  rw [hl]
  exact plateauStep_divisor_mono T R (0 + i + 1) l x.1 hR h0

/-- Witness for the amended C9 theorem: a concrete non-firing step leaves the
divisor and the guard value unchanged. -/
theorem c9_plateau_amended_witness :
    (plateauStep 2 2 0 0 (plateauInit 2)).1.divisor = (plateauInit 2).divisor ∧
    (plateauStep 2 2 0 0 (plateauInit 2)).1.lastReduce = (plateauInit 2).lastReduce :=
  (c9_plateau_amended 2 2 (by norm_num)).2.2.1 0 0 (plateauInit 2)
    (by norm_num [plateauStep, plateauInit])

end HomebrewOpt
